import Mathlib

/-!
# Verification of the job-aggregation pipeline

Shallow embedding of the multi-source fetch-paginate-dedup-normalize pipeline:
the three board connectors (`jobspy/indeed`, `jobspy/linkedin`, `jobspy/naukri`)
and the normalization stage of `server.py`.

Modelling conventions:
* Network I/O is abstracted by a fetch oracle (one value per request); a request
  that raises a transport exception, or whose body fails to parse as JSON, is the
  oracle value `exn`.
* Strings are handled through their character lists (`String.data`) so that all
  definitions evaluate by kernel reduction.
* Wall-clock values (`datetime.now()`) and epoch-to-calendar conversion
  (`datetime.fromtimestamp`, which is timezone dependent) are passed in as
  explicit parameters (`today : Int`, `fromMs : Int → Int`), making every
  function pure.  Calendar dates are represented as integers (day numbers).
* Numeric record fields are modelled as exact integers/naturals with explicit
  scaling (Python floats on the claim-relevant inputs are exact).
* Python regular-expression patterns are modelled by committed-choice
  recursive-descent matchers; for each pattern used here the greedy sub-matches
  are never backtracked into by the Python engine either (the character class of
  each repeated group is disjoint from what can follow it), so the committed
  model agrees with `re` on the inputs considered.
-/

/-! ## Character-list string helpers -/

def listIsPrefix (pat s : List Char) : Bool :=
  match pat, s with
  | [], _ => true
  | _ :: _, [] => false
  | p :: ps, c :: cs => p == c && listIsPrefix ps cs

/-- Bool model of Python's `pat in s` substring test. -/
def listHasInfix (pat s : List Char) : Bool :=
  match s with
  | [] => listIsPrefix pat []
  | _ :: rest => listIsPrefix pat s || listHasInfix pat rest

/-- Python `pat in s` on strings. -/
def strContains (s pat : String) : Bool := listHasInfix pat.data s.data

def lowerChars (cs : List Char) : List Char := cs.map Char.toLower

def upperChars (cs : List Char) : List Char := cs.map Char.toUpper

/-- Python `str.strip()`. -/
def trimChars (cs : List Char) : List Char :=
  ((cs.dropWhile Char.isWhitespace).reverse.dropWhile Char.isWhitespace).reverse

/-- Python `str.split(", ")` (left-to-right, non-overlapping). -/
def splitCommaSpace : List Char → List Char → List (List Char)
  | [], acc => [acc.reverse]
  | ',' :: ' ' :: rest, acc => acc.reverse :: splitCommaSpace rest []
  | c :: rest, acc => splitCommaSpace rest (c :: acc)

def digitChar : Nat → Char
  | 0 => '0' | 1 => '1' | 2 => '2' | 3 => '3' | 4 => '4'
  | 5 => '5' | 6 => '6' | 7 => '7' | 8 => '8' | _ => '9'

/-- Digit accumulation, structurally recursive on a fuel bound (any
`fuel >= n >= 1` yields all digits of `n`, since `n` has at most `n` digits). -/
def natDigits : Nat → Nat → List Char → List Char
  | 0, _, acc => acc
  | _ + 1, 0, acc => acc
  | fuel + 1, n + 1, acc =>
    natDigits fuel ((n + 1) / 10) (digitChar ((n + 1) % 10) :: acc)

/-- Decimal rendering of a natural number. -/
def natToStr (n : Nat) : String :=
  if n = 0 then "0" else String.mk (natDigits n n [])

/-- Python `str()` of an integer. -/
def intToStr (i : Int) : String :=
  if i < 0 then "-" ++ natToStr i.natAbs else natToStr i.natAbs

def digitsToNat (ds : List Char) : Nat :=
  ds.foldl (fun a c => a * 10 + (c.toNat - '0'.toNat)) 0

theorem strData_append (a b : String) : (a ++ b).data = a.data ++ b.data := rfl

theorem strEqOfData {a b : String} (h : a.data = b.data) : a = b := by
  cases a; cases b; exact congrArg String.mk h

/-! ## Regex building blocks (committed-choice matchers) -/

/-- Skip `\s*`. -/
def ws (cs : List Char) : List Char := cs.dropWhile Char.isWhitespace

/-- Case-insensitive literal: consume `pat` (given lowercase) from the head. -/
def ciLitGo : List Char → List Char → Option (List Char)
  | [], cs => some cs
  | _ :: _, [] => none
  | p :: ps, c :: cs => if c.toLower == p.toLower then ciLitGo ps cs else none

def ciLit (pat : String) (cs : List Char) : Option (List Char) := ciLitGo pat.data cs

/-- Consume one literal character or fail. -/
def expectChar (c : Char) : List Char → Option (List Char)
  | x :: rest => if x == c then some rest else none
  | [] => none

/-- Optional literal character (`c?`). -/
def optChar (c : Char) (cs : List Char) : List Char :=
  match cs with
  | x :: rest => if x == c then rest else cs
  | [] => cs

/-- Optional case-insensitive literal followed by `\s*` (e.g. `(?:per\s*)?`). -/
def optCiLitWs (pat : String) (cs : List Char) : List Char :=
  match ciLit pat cs with
  | some rest => ws rest
  | none => cs

/-- A matched decimal numeral: the raw matched text, its digits as a natural
number, and the number of fractional digits (`value = mant / 10 ^ scale`). -/
structure DecNum where
  raw : List Char
  mant : Nat
  scale : Nat
deriving Repr, DecidableEq

/-- Match `\d+(?:\.\d+)?` at the head (the fractional part is only consumed when
a digit follows the dot, which is exactly when the greedy optional group can
participate in a successful match). -/
def parseDecNum (cs : List Char) : Option (DecNum × List Char) :=
  let ds := cs.takeWhile Char.isDigit
  let r1 := cs.dropWhile Char.isDigit
  if ds.isEmpty then none
  else
    match r1 with
    | '.' :: r2 =>
      let fs := r2.takeWhile Char.isDigit
      let r3 := r2.dropWhile Char.isDigit
      if fs.isEmpty then some (⟨ds, digitsToNat ds, 0⟩, r1)
      else some (⟨ds ++ '.' :: fs, digitsToNat (ds ++ fs), fs.length⟩, r3)
    | _ => some (⟨ds, digitsToNat ds, 0⟩, r1)

/-- Match `[\d,]+(?:\.\d+)?` at the head; returns the raw matched text. -/
def parseAmount (cs : List Char) : Option (List Char × List Char) :=
  let ds := cs.takeWhile (fun c => c.isDigit || c == ',')
  let r1 := cs.dropWhile (fun c => c.isDigit || c == ',')
  if ds.isEmpty then none
  else
    match r1 with
    | '.' :: r2 =>
      let fs := r2.takeWhile Char.isDigit
      let r3 := r2.dropWhile Char.isDigit
      if fs.isEmpty then some (ds, r1) else some (ds ++ '.' :: fs, r3)
    | _ => some (ds, r1)

/-- `re.search`: try the matcher at every start position, leftmost first. -/
def scanFor {α : Type} (m : List Char → Option α) : List Char → Option α
  | [] => m []
  | c :: rest =>
    match m (c :: rest) with
    | some r => some r
    | none => scanFor m rest

/-! ## Shared data model (`jobspy.model` is not under src/; these shapes are the
ones the three connectors construct) -/

structure Compensation where
  min_amount : Option Int
  max_amount : Option Int
  currency : String
  interval : Option String
deriving Repr, DecidableEq

structure Location where
  city : Option String
  state : Option String
  country : Option String
deriving Repr, DecidableEq

structure JobPost where
  id : String
  title : String
  company_name : Option String
  location : Location
  job_url : String
  job_type : Option (List String)
  compensation : Option Compensation
  date_posted : Option Int
  description : Option String
deriving Repr, DecidableEq

/-- The `ScraperInput` fields the modelled control flow reads. -/
structure ScraperInput where
  search_term : String
  results_wanted : Nat
  offset : Nat
deriving Repr, DecidableEq

/-! ## Naukri connector (`src/jobspy/naukri/__init__.py`) -/

/-- One entry of a raw job's `placeholders` array (`type`/`label` keys; a
missing key reads as a string that matches neither `"location"` nor
`"salary"`, modelled by the empty string). -/
structure Placeholder where
  ptype : String
  label : String
deriving Repr, DecidableEq

/-- Raw Naukri job dict: the keys `_process_job` and `scrape` read.
`none` models an absent or null JSON field. -/
structure NaukriRawJob where
  jobId : Option String
  title : Option String
  companyName : Option String
  placeholders : List Placeholder
  footerPlaceholderLabel : Option String
  createdDate : Option Int
  jdURL : Option String
  jobDescription : Option String
deriving Repr, DecidableEq

/-- Committed-choice model of
`re.match(r"(\d+(?:\.\d+)?)\s*-\s*(\d+(?:\.\d+)?)\s*(Lacs|Lakh|Cr)", text, re.IGNORECASE)`
returning the two numerals and the matched unit alternative, lowercased
(the code only uses `unit.lower()`). -/
def naukriSalaryMatch (text : List Char) : Option (DecNum × DecNum × String) := do
  let (n1, cs) ← parseDecNum text
  let cs := ws cs
  let cs ← expectChar '-' cs
  let cs := ws cs
  let (n2, cs) ← parseDecNum cs
  let cs := ws cs
  match ciLit "lacs" cs with
  | some _ => some (n1, n2, "lacs")
  | none =>
    match ciLit "lakh" cs with
    | some _ => some (n1, n2, "lakh")
    | none =>
      match ciLit "cr" cs with
      | some _ => some (n1, n2, "cr")
      | none => none

/-- `Naukri._get_compensation`.  `int(float(x) * unit)` on the non-negative
matched numerals is `(mant * unit) / 10 ^ scale` in exact arithmetic. -/
def naukriGetCompensation : List Placeholder → Option Compensation
  | [] => none
  | p :: rest =>
    if p.ptype = "salary" then
      let salaryText := trimChars p.label.data
      if salaryText = "Not disclosed".data then none
      else
        match naukriSalaryMatch salaryText with
        | some (mn, mx, unit) =>
          let mult : Nat :=
            if unit = "lacs" ∨ unit = "lakh" then 100000
            else if unit = "cr" then 10000000
            else 1
          some { min_amount := some ((mn.mant * mult) / 10 ^ mn.scale : Nat)
               , max_amount := some ((mx.mant * mult) / 10 ^ mx.scale : Nat)
               , currency := "INR"
               , interval := none }
        | none => naukriGetCompensation rest
    else naukriGetCompensation rest

/-- `Naukri._get_location` (country enum `Country.INDIA` rendered as its
name; `jobspy.model` is not under src/). -/
def naukriGetLocation : List Placeholder → Location
  | [] => { city := none, state := none, country := some "India" }
  | p :: rest =>
    if p.ptype = "location" then
      let parts := splitCommaSpace p.label.data []
      { city := some (String.mk (parts.headD []))
      , state := if parts.length > 1 then some (String.mk ((parts.drop 1).headD [])) else none
      , country := some "India" }
    else naukriGetLocation rest

/-- Search for `(\d+)\s*day` (leftmost match of `re.search`); returns the
captured number. -/
def searchDayNum : List Char → Option Nat
  | [] => none
  | c :: rest =>
    if c.isDigit then
      let ds := (c :: rest).takeWhile Char.isDigit
      let r1 := ((c :: rest).dropWhile Char.isDigit).dropWhile Char.isWhitespace
      if listIsPrefix "day".data r1 then some (digitsToNat ds)
      else searchDayNum rest
    else searchDayNum rest

/-- The `created_date` fallback of `Naukri._parse_date`
(`datetime.fromtimestamp(created_date / 1000).date()` when `created_date` is
truthy, else `None`). -/
def naukriDateFromCreated (fromMs : Int → Int) : Option Int → Option Int
  | some c => if c ≠ 0 then some (fromMs c) else none
  | none => none

/-- `Naukri._parse_date`.  `today` stands for `datetime.now().date()`, `fromMs`
for `fun c => datetime.fromtimestamp(c / 1000).date()`. -/
def naukriParseDate (today : Int) (fromMs : Int → Int)
    (label : Option String) (createdDate : Option Int) : Option Int :=
  match label with
  | none => naukriDateFromCreated fromMs createdDate
  | some lbl =>
    if lbl = "" then naukriDateFromCreated fromMs createdDate
    else
      let l := lowerChars lbl.data
      if listHasInfix "today".data l || listHasInfix "just now".data l
          || listHasInfix "few hours".data l then
        some today
      else if listHasInfix "ago".data l then
        match searchDayNum l with
        | some days => some (today - (days : Int))
        | none => none
      else naukriDateFromCreated fromMs createdDate

/-- `Naukri._process_job` (markdown conversion of the description uses
`jobspy.util.markdown_converter`, not under src/; the raw-description path is
modelled). -/
def naukriProcessJob (today : Int) (fromMs : Int → Int)
    (job : NaukriRawJob) (jobId : String) : JobPost :=
  { id := "nk-" ++ jobId
  , title := job.title.getD "N/A"
  , company_name := some (job.companyName.getD "N/A")
  , location := naukriGetLocation job.placeholders
  , job_url := "https://www.naukri.com" ++ job.jdURL.getD ("/job/" ++ jobId)
  , job_type := none
  , compensation := naukriGetCompensation job.placeholders
  , date_posted := naukriParseDate today fromMs job.footerPlaceholderLabel job.createdDate
  , description := job.jobDescription }

/-- Result of one Naukri page request: `exn` models a raised transport/JSON
exception; `resp` carries the HTTP status and the `jobDetails` array. -/
inductive NaukriFetch where
  | exn
  | resp (status : Nat) (jobDetails : List NaukriRawJob)
deriving Repr, DecidableEq

/-- The per-page `for job in job_details` loop of `Naukri.scrape`, with its
dedup on `jobId` and its `break` when `continue_search()` turns false. -/
def naukriProcessPage (today : Int) (fromMs : Int → Int) (wanted page : Nat) :
    List NaukriRawJob → List JobPost → List String → List JobPost × List String
  | [], jl, seen => (jl, seen)
  | job :: rest, jl, seen =>
    match job.jobId with
    | none => naukriProcessPage today fromMs wanted page rest jl seen
    | some jid =>
      if jid = "" ∨ seen.contains jid then
        naukriProcessPage today fromMs wanted page rest jl seen
      else
        let seen' := jid :: seen
        let jl' := jl ++ [naukriProcessJob today fromMs job jid]
        if jl'.length < wanted ∧ page ≤ 50 then
          naukriProcessPage today fromMs wanted page rest jl' seen'
        else (jl', seen')

/-- The `while continue_search()` loop of `Naukri.scrape`.  Returns the final
job list together with the list of page numbers actually fetched.  Structural
recursion on `fuel`: the loop's own `page <= 50` ceiling bounds its iterations,
so the `fuel = 0` case (given the same value as the exhausted guard) is
unreachable from `naukriScrapeT`, which supplies `fuel = 51` for `page = 1`. -/
def naukriGo (fetch : Nat → NaukriFetch) (today : Int) (fromMs : Int → Int)
    (wanted : Nat) :
    Nat → List JobPost → List String → Nat → List JobPost × List Nat
  | 0, jl, _, _ => (jl.take wanted, [])
  | fuel + 1, jl, seen, page =>
    if jl.length < wanted ∧ page ≤ 50 then
      match fetch page with
      | .exn => (jl, [page])
      | .resp status details =>
        if 200 ≤ status ∧ status < 400 then
          if details.isEmpty then (jl.take wanted, [page])
          else
            let r := naukriProcessPage today fromMs wanted page details jl seen
            if r.1.length < wanted ∧ page ≤ 50 then
              let r2 := naukriGo fetch today fromMs wanted fuel r.1 r.2 (page + 1)
              (r2.1, page :: r2.2)
            else (r.1.take wanted, [page])
        else (jl, [page])
    else (jl.take wanted, [])

/-- `Naukri.scrape` with the fetch trace (`seen_ids` and the accumulator start
empty, `page = 1`). -/
def naukriScrapeT (fetch : Nat → NaukriFetch) (today : Int) (fromMs : Int → Int)
    (wanted : Nat) : List JobPost × List Nat :=
  naukriGo fetch today fromMs wanted 51 [] [] 1

/-- `Naukri.scrape`: the returned `JobResponse.jobs`. -/
def naukriScrape (fetch : Nat → NaukriFetch) (today : Int) (fromMs : Int → Int)
    (wanted : Nat) : List JobPost :=
  (naukriScrapeT fetch today fromMs wanted).1

/-! ## LinkedIn connector (`src/jobspy/linkedin/__init__.py`) -/

/-- A parsed `base-search-card` div, pre-extracted from the markup (the
BeautifulSoup traversal itself is not re-modelled):
* `href`: the `base-card__full-link` href attribute, `none` when the tag or the
  attribute is missing;
* `salary`: the result of the salary-info parsing block (its
  `currency_parser` lives in `jobspy/util.py`, which is not under src/);
* `listdate`: the parsed `datetime` attribute of the listdate tag, `none` when
  absent or unparseable. -/
structure LICard where
  href : Option String
  titleText : Option String
  companyText : Option String
  locationText : Option String
  listdate : Option Int
  salary : Option Compensation
deriving Repr, DecidableEq

/-- Result of one LinkedIn page request. -/
inductive LIFetch where
  | exn
  | resp (status : Nat) (cards : List LICard)
deriving Repr, DecidableEq

/-- `href.split("?")[0]` then `.split("-")[-1]`. -/
def liJobId (href : String) : String :=
  let beforeQuery := href.data.takeWhile (fun c => c ≠ '?')
  String.mk ((beforeQuery.reverse.takeWhile (fun c => c ≠ '-')).reverse)

/-- `LinkedIn._get_location` (the scraper's `country` field is always
`"worldwide"`; `Country.from_string` of `jobspy.model` is not under src/ and is
modelled as the raw string). -/
def liGetLocation (locText : Option String) : Location :=
  match locText with
  | none => { city := none, state := none, country := some "worldwide" }
  | some t =>
    let parts := splitCommaSpace (trimChars t.data) []
    if parts.length = 2 then
      { city := some (String.mk (parts.headD []))
      , state := some (String.mk ((parts.drop 1).headD []))
      , country := some "worldwide" }
    else if parts.length = 3 then
      { city := some (String.mk (parts.headD []))
      , state := some (String.mk ((parts.drop 1).headD []))
      , country := some (String.mk ((parts.drop 2).headD [])) }
    else { city := none, state := none, country := some "worldwide" }

/-- `LinkedIn._process_job` (the `linkedin_fetch_description = False` path:
`description = None`; the server's callers never enable that flag). -/
def liProcessJob (card : LICard) (jobId : String) : JobPost :=
  { id := "li-" ++ jobId
  , title := card.titleText.getD "N/A"
  , company_name := some (card.companyText.getD "N/A")
  , location := liGetLocation card.locationText
  , job_url := "https://www.linkedin.com/jobs/view/" ++ jobId
  , job_type := none
  , compensation := card.salary
  , date_posted := card.listdate
  , description := none }

/-- The per-page `for job_card in job_cards` loop of `LinkedIn.scrape`:
cards without an href are skipped whole, ids are deduplicated against
`seen_ids`, and the loop breaks when `continue_search()` turns false. -/
def liProcessCards (wanted start : Nat) :
    List LICard → List JobPost → List String → List JobPost × List String
  | [], jl, seen => (jl, seen)
  | card :: rest, jl, seen =>
    match card.href with
    | none => liProcessCards wanted start rest jl seen
    | some href =>
      let jid := liJobId href
      if seen.contains jid then liProcessCards wanted start rest jl seen
      else
        let seen' := jid :: seen
        let jl' := jl ++ [liProcessJob card jid]
        if jl'.length < wanted ∧ start < 1000 then
          liProcessCards wanted start rest jl' seen'
        else (jl', seen')

/-- The `while continue_search()` loop of `LinkedIn.scrape`, returning the job
list and the list of `start` offsets actually fetched.  Structural recursion on
`fuel`: `start` grows by the (nonzero) card count of each fetched page and the
guard requires `start < 1000`, so at most `1000` page fetches can happen and
`linkedinScrapeT`'s `fuel = 1001` makes the `fuel = 0` case unreachable. -/
def linkedinGo (fetch : Nat → LIFetch) (wanted : Nat) :
    Nat → List JobPost → List String → Nat → List JobPost × List Nat
  | 0, jl, _, _ => (jl.take wanted, [])
  | fuel + 1, jl, seen, start =>
    if jl.length < wanted ∧ start < 1000 then
      match fetch start with
      | .exn => (jl, [start])
      | .resp status cards =>
        if 200 ≤ status ∧ status < 400 then
          if cards.length = 0 then (jl, [start])
          else
            let r := liProcessCards wanted start cards jl seen
            if r.1.length < wanted ∧ start < 1000 then
              let r2 := linkedinGo fetch wanted fuel r.1 r.2 (start + cards.length)
              (r2.1, start :: r2.2)
            else (r.1.take wanted, [start])
        else (jl, [start])
    else (jl.take wanted, [])

/-- `LinkedIn.scrape` with the fetch trace.  `seen_ids` and the accumulator
start empty; `start = offset // 10 * 10 if offset else 0`. -/
def linkedinScrapeT (fetch : Nat → LIFetch) (inp : ScraperInput) :
    List JobPost × List Nat :=
  let start := if inp.offset ≠ 0 then inp.offset / 10 * 10 else 0
  linkedinGo fetch inp.results_wanted 1001 [] [] start

/-- `LinkedIn.scrape`: the returned `JobResponse.jobs`. -/
def linkedinScrape (fetch : Nat → LIFetch) (inp : ScraperInput) : List JobPost :=
  (linkedinScrapeT fetch inp).1

/-! ## Indeed connector (`src/jobspy/indeed/__init__.py` and
`src/jobspy/indeed/util.py`) -/

/-- Raw shapes of the GraphQL `compensation` field read by
`indeed.util.get_compensation`. -/
structure CompRange where
  min : Option Int
  max : Option Int
deriving Repr, DecidableEq

structure CompBase where
  unitOfWork : Option String
  range : Option CompRange
deriving Repr, DecidableEq

structure CompEstimated where
  baseSalary : Option CompBase
  currencyCode : Option String
deriving Repr, DecidableEq

structure CompensationRaw where
  baseSalary : Option CompBase
  estimated : Option CompEstimated
  currencyCode : Option String
deriving Repr, DecidableEq

/-- `indeed.util._get_compensation_interval`.  The mapped names are exactly the
members of `jobspy.model.CompensationInterval` (not under src/), so the
`in CompensationInterval.__members__` test passes for every mapped value. -/
def indeedCompInterval (interval : String) : Option String :=
  if interval = "" then none
  else
    let u := String.mk (upperChars interval.data)
    if u = "DAY" then some "DAILY"
    else if u = "YEAR" then some "YEARLY"
    else if u = "HOUR" then some "HOURLY"
    else if u = "WEEK" then some "WEEKLY"
    else if u = "MONTH" then some "MONTHLY"
    else none

/-- `indeed.util.get_compensation` (`none` models a falsy/absent dict). -/
def indeedGetCompensation : Option CompensationRaw → Option Compensation
  | none => none
  | some c =>
    if c.baseSalary = none ∧ c.estimated = none then none
    else
      let comp : Option CompBase :=
        match c.baseSalary with
        | some b => some b
        | none =>
          match c.estimated with
          | some e => e.baseSalary
          | none => none
      match comp with
      | none => none
      | some b =>
        match indeedCompInterval (b.unitOfWork.getD "") with
        | none => none
        | some interval =>
          some { min_amount := match b.range with | some r => r.min | none => none
               , max_amount := match b.range with | some r => r.max | none => none
               , currency :=
                   (((c.estimated.bind (fun e => e.currencyCode)).orElse
                      (fun _ => c.currencyCode)).getD "USD")
               , interval := some interval }

/-- Modelled from the spec: `jobspy.util.get_enum_from_job_type` lives in
`jobspy/util.py`, which is not under src/.  Spec section 4.1: the job-type
mapping takes a normalized label and yields an enumerated type, dropping
unknown labels silently; the enumerated categories are the five of section 3. -/
def getEnumFromJobType (s : String) : Option String :=
  if strContains s "fulltime" then some "fulltime"
  else if strContains s "parttime" then some "parttime"
  else if strContains s "internship" then some "internship"
  else if strContains s "contract" then some "contract"
  else if strContains s "temporary" then some "temporary"
  else none

/-- `indeed.util.get_job_type`: normalize each attribute label
(drop `-` and spaces, lowercase) and keep the recognized ones. -/
def indeedGetJobType (attributes : List String) : List String :=
  match attributes with
  | [] => []
  | label :: rest =>
    let normalized :=
      String.mk (lowerChars (label.data.filter (fun c => c ≠ '-' ∧ c ≠ ' ')))
    match getEnumFromJobType normalized with
    | some jt => jt :: indeedGetJobType rest
    | none => indeedGetJobType rest

/-- Raw Indeed GraphQL job node: the keys `Indeed._process_job` reads.
`employerName` stands for `job["employer"].get("name") if job.get("employer")`;
`comp` is the raw `compensation` dict (`none` when absent/empty). -/
structure IndeedRawJob where
  key : String
  title : String
  descriptionHtml : String
  attributes : List String
  datePublished : Int
  locCity : Option String
  locState : Option String
  locCountry : Option String
  employerName : Option String
  comp : Option CompensationRaw
deriving Repr, DecidableEq

/-- The job-view URL `f'\x7bself.base_url\x7d/viewjob?jk=\x7bjob["key"]\x7d'` that
`Indeed._process_job` derives and deduplicates on. -/
def indeedUrlOf (base k : String) : String := base ++ "/viewjob?jk=" ++ k

/-- The `JobPost` built by `Indeed._process_job`.  `date_posted` abstracts
`fromtimestamp(ms/1000).strftime("%Y-%m-%d")` as an epoch day number (timezone
elided). -/
def indeedPost (base : String) (job : IndeedRawJob) : JobPost :=
  { id := "in-" ++ job.key
  , title := job.title
  , company_name := job.employerName
  , location := { city := job.locCity, state := job.locState, country := job.locCountry }
  , job_url := indeedUrlOf base job.key
  , job_type := some (indeedGetJobType job.attributes)
  , compensation := indeedGetCompensation job.comp
  , date_posted := some (job.datePublished / 1000 / 86400)
  , description := some job.descriptionHtml }

/-- `Indeed._process_job`: returns `none` (and leaves `seen_urls` unchanged)
exactly when the job's URL was already seen; otherwise adds the URL and builds
the post. -/
def indeedProcessJob (baseUrl : String) (job : IndeedRawJob) (seen : List String) :
    Option JobPost × List String :=
  if seen.contains (indeedUrlOf baseUrl job.key) then (none, seen)
  else (some (indeedPost baseUrl job), indeedUrlOf baseUrl job.key :: seen)

/-- The `for job in jobs` loop of `Indeed._scrape_page`. -/
def indeedProcessRaws (baseUrl : String) :
    List IndeedRawJob → List String → List JobPost × List String
  | [], seen => ([], seen)
  | j :: rest, seen =>
    match indeedProcessJob baseUrl j seen with
    | (none, seen') => indeedProcessRaws baseUrl rest seen'
    | (some p, seen') =>
      let r := indeedProcessRaws baseUrl rest seen'
      (p :: r.1, r.2)

/-- Result of one Indeed GraphQL POST: `exn` models a raised transport
exception (there is no try/except around `session.post` in the Indeed
scraper); `resp ok results nextCursor` models a response
(`ok = response.ok`; on `not ok` the page function returns `([], None)`). -/
inductive IndeedFetch where
  | exn
  | resp (ok : Bool) (results : List IndeedRawJob) (nextCursor : Option String)
deriving Repr, DecidableEq

/-- The `while len(self.seen_urls) < results_wanted + offset` loop of
`Indeed.scrape`.  A raised transport exception propagates (`Except.error`).
Structural recursion on `fuel`: every continuing iteration returns at least one
new job, each of which adds one URL to `seen_urls`, so the iteration count is
bounded by `wanted + offset - seen.length + 1` and `indeedScrape`'s
`fuel = wanted + offset + 1` makes the `fuel = 0` case (same value as the
exhausted guard) unreachable. -/
def indeedGo (fetch : Nat → IndeedFetch) (baseUrl : String) (wanted offset : Nat) :
    Nat → List JobPost → List String → Option String → Nat →
    Except Unit (List JobPost × List String)
  | 0, jl, seen, _, _ => .ok (jl, seen)
  | fuel + 1, jl, seen, _cursor, page =>
    if seen.length < wanted + offset then
      match fetch page with
      | .exn => .error ()
      | .resp ok results next =>
        if ok then
          let r := indeedProcessRaws baseUrl results seen
          if r.1.isEmpty then .ok (jl, r.2)
          else indeedGo fetch baseUrl wanted offset fuel (jl ++ r.1) r.2 next (page + 1)
        else .ok (jl, seen)
    else .ok (jl, seen)

/-- The fixed job-view URL base (domain comes from
`jobspy.model.Country.indeed_domain_value`, not under src/; the server always
passes `country_indeed="India"`). -/
def indeedBaseUrl : String := "https://in.indeed.com"

/-- `Indeed.scrape` on an instance whose `self.seen_urls` currently holds
`seen0` (the set is created in `__init__` and never cleared, so it survives
across calls on the same instance).  Returns the sliced
`job_list[offset : offset + results_wanted]` and the instance's final
`seen_urls`. -/
def indeedScrape (fetch : Nat → IndeedFetch) (inp : ScraperInput)
    (seen0 : List String) : Except Unit (List JobPost × List String) :=
  match indeedGo fetch indeedBaseUrl inp.results_wanted inp.offset
      (inp.results_wanted + inp.offset + 1) [] seen0 none 1 with
  | .error e => .error e
  | .ok (jl, seen) => .ok ((jl.drop inp.offset).take inp.results_wanted, seen)

/-- The jobs of an `Indeed.scrape` run, an empty list when the run raised. -/
def indeedJobs (fetch : Nat → IndeedFetch) (inp : ScraperInput)
    (seen0 : List String) : List JobPost :=
  match indeedScrape fetch inp seen0 with
  | .ok (jl, _) => jl
  | .error _ => []

/-- The final `seen_urls` of an `Indeed.scrape` run (unchanged when the run
raised before any processing, which is how the counterexamples use it). -/
def indeedSeenAfter (fetch : Nat → IndeedFetch) (inp : ScraperInput)
    (seen0 : List String) : List String :=
  match indeedScrape fetch inp seen0 with
  | .ok (_, seen) => seen
  | .error _ => seen0

/-! ## Aggregation layer -/

/-- Modelled from the spec: the aggregation operation `jobspy.scrape_jobs`
(`jobspy/__init__.py`) is not under src/.  Spec section 4.4: it runs every
configured connector over the same query and concatenates their result lists
(cross-source duplicates are deliberately not suppressed); section 7: an
individual connector's failure degrades to that connector contributing zero
records.  `seen0` is the Indeed instance's persistent `seen_urls` state. -/
def aggregateJobs (fetchI : Nat → IndeedFetch) (fetchL : Nat → LIFetch)
    (fetchN : Nat → NaukriFetch) (today : Int) (fromMs : Int → Int)
    (inp : ScraperInput) (seen0 : List String) : List JobPost :=
  indeedJobs fetchI inp seen0 ++ linkedinScrape fetchL inp
    ++ naukriScrape fetchN today fromMs inp.results_wanted

/-! ## Server normalization stage (`src/server.py`) -/

/-- A Python value stored in a scraped-record dict.  `nan` is the pandas float
NaN (`clean_nan` turns it into `null`); numbers are modelled as exact integers
(see the header); dates carry a day number. -/
inductive JVal where
  | null
  | s (v : String)
  | num (v : Int)
  | nan
  | pydate (d : Int)
  | pydatetime (d : Int)
deriving Repr, DecidableEq

/-- `clean_nan`. -/
def clean_nan : JVal → JVal
  | .nan => .null
  | v => v

/-- Python truthiness of a stored value (note: `nan` is truthy in Python,
but `clean_nan` runs first in the transform). -/
def jTruthy : JVal → Bool
  | .null => false
  | .s v => v ≠ ""
  | .num v => v ≠ 0
  | .nan => true
  | .pydate _ => true
  | .pydatetime _ => true

/-- Python `str()` of a stored value (dates get a definite token rendering;
no claim depends on Python's exact date formatting). -/
def jRender : JVal → String
  | .null => "None"
  | .s v => v
  | .num v => intToStr v
  | .nan => "nan"
  | .pydate d => "date-" ++ intToStr d
  | .pydatetime d => "datetime-" ++ intToStr d

/-- A jobspy record dict as `transform_jobspy_to_schema` reads it: one entry
per key the transform looks up; `none` models an absent key. -/
structure Doc where
  title : Option JVal
  company_name : Option JVal
  company : Option JVal
  location : Option JVal
  description : Option JVal
  job_type : Option JVal
  job_url : Option JVal
  site : Option JVal
  date_posted : Option JVal
  min_amount : Option JVal
  max_amount : Option JVal
  currency : Option JVal
  interval : Option JVal
deriving Repr, DecidableEq

/-- `doc.get(k)`. -/
def dGet (f : Option JVal) : JVal := f.getD .null

/-- `doc.get(k, default)`. -/
def dGetD (f : Option JVal) (d : JVal) : JVal := f.getD d

/-- The `for k, v in doc.items(): doc[k] = clean_nan(v)` pass. -/
def cleanDoc (doc : Doc) : Doc :=
  { title := doc.title.map clean_nan
  , company_name := doc.company_name.map clean_nan
  , company := doc.company.map clean_nan
  , location := doc.location.map clean_nan
  , description := doc.description.map clean_nan
  , job_type := doc.job_type.map clean_nan
  , job_url := doc.job_url.map clean_nan
  , site := doc.site.map clean_nan
  , date_posted := doc.date_posted.map clean_nan
  , min_amount := doc.min_amount.map clean_nan
  , max_amount := doc.max_amount.map clean_nan
  , currency := doc.currency.map clean_nan
  , interval := doc.interval.map clean_nan }

/-- `map_job_type`. -/
def map_job_type (v : JVal) : String :=
  if !(jTruthy v) then "Full-time"
  else
    let l := lowerChars (jRender v).data
    if listHasInfix "intern".data l then "Internship"
    else if listHasInfix "contract".data l || listHasInfix "temporary".data l then "Contract"
    else "Full-time"

/-- Optional separator `(?:-|to|–)?` (alternatives in the pattern's order). -/
def optSep (cs : List Char) : List Char :=
  match cs with
  | '-' :: rest => rest
  | _ =>
    match ciLit "to" cs with
    | some rest => rest
    | none =>
      match cs with
      | '–' :: rest => rest
      | _ => cs

/-- Required separator `(?:-|to|–)`. -/
def reqSep (cs : List Char) : Option (List Char) :=
  match cs with
  | '-' :: rest => some rest
  | _ =>
    match ciLit "to" cs with
    | some rest => some rest
    | none =>
      match cs with
      | '–' :: rest => some rest
      | _ => none

/-- Committed-choice model of one attempt (at the head of `cs`) of the pay
pattern of `extract_indian_salary`:
`Pay:\s*(?:From\s*)?(?:Up\s*to\s*)?₹?\s*([\d,]+(?:\.\d+)?)\s*(?:-|to|–)?\s*₹?\s*([\d,]+(?:\.\d+)?)?\s*(?:per\s*)?(year|month|annum)`
(IGNORECASE).  Captures group 1, optional group 2 (raw text) and group 3
lowercased (the code only uses `.lower()` of it). -/
def payMatchAt (cs0 : List Char) : Option (List Char × Option (List Char) × String) := do
  let cs ← ciLit "pay:" cs0
  let cs := ws cs
  let cs := optCiLitWs "from" cs
  let cs :=
    match (do
      let r ← ciLit "up" cs
      let r2 ← ciLit "to" (ws r)
      pure (ws r2)) with
    | some r => r
    | none => cs
  let cs := optChar '₹' cs
  let cs := ws cs
  let (g1, cs) ← parseAmount cs
  let cs := ws cs
  let cs := optSep cs
  let cs := ws cs
  let cs := optChar '₹' cs
  let cs := ws cs
  let (g2, cs) :=
    match parseAmount cs with
    | some (g, rest) => (some g, rest)
    | none => (none, cs)
  let cs := ws cs
  let cs := optCiLitWs "per" cs
  match ciLit "year" cs with
  | some _ => some (g1, g2, "year")
  | none =>
    match ciLit "month" cs with
    | some _ => some (g1, g2, "month")
    | none =>
      match ciLit "annum" cs with
      | some _ => some (g1, g2, "annum")
      | none => none

/-- Committed-choice model of one attempt of the LPA range pattern:
`(\d+(?:\.\d+)?)\s*(?:-|to|–)\s*(\d+(?:\.\d+)?)\s*(?:lpa|lakhs?\s*(?:per\s*)?(?:annum|p\.a\.?))`. -/
def lpaMatchAt (cs0 : List Char) : Option (List Char × List Char) := do
  let (n1, cs) ← parseDecNum cs0
  let cs := ws cs
  let cs ← reqSep cs
  let cs := ws cs
  let (n2, cs) ← parseDecNum cs
  let cs := ws cs
  match ciLit "lpa" cs with
  | some _ => some (n1.raw, n2.raw)
  | none => do
    let cs ← ciLit "lakh" cs
    let cs := match cs with
      | c :: r => if c.toLower == 's' then r else c :: r
      | [] => []
    let cs := ws cs
    let cs := optCiLitWs "per" cs
    match ciLit "annum" cs with
    | some _ => some (n1.raw, n2.raw)
    | none => do
      let _ ← ciLit "p.a" cs
      some (n1.raw, n2.raw)

/-- Committed-choice model of one attempt of the single-LPA pattern:
`(?:upto\s*|up\s*to\s*)?(\d+(?:\.\d+)?)\s*(?:lpa|lakhs?\s*(?:per\s*)?annum)`. -/
def singleLpaMatchAt (cs0 : List Char) : Option (List Char) := do
  let cs :=
    match ciLit "upto" cs0 with
    | some r => ws r
    | none =>
      match (do
        let r ← ciLit "up" cs0
        let r2 ← ciLit "to" (ws r)
        pure (ws r2)) with
      | some r => r
      | none => cs0
  let (n1, cs) ← parseDecNum cs
  let cs := ws cs
  match ciLit "lpa" cs with
  | some _ => some n1.raw
  | none => do
    let cs ← ciLit "lakh" cs
    let cs := match cs with
      | c :: r => if c.toLower == 's' then r else c :: r
      | [] => []
    let cs := ws cs
    let cs := optCiLitWs "per" cs
    let _ ← ciLit "annum" cs
    some n1.raw

/-- Committed-choice model of one attempt of the CTC pattern:
`ctc[:\s]+(\d+(?:\.\d+)?)\s*(?:-|to|–)\s*(\d+(?:\.\d+)?)\s*(?:lakhs?|lpa)?`
(the trailing optional unit constrains nothing). -/
def ctcMatchAt (cs0 : List Char) : Option (List Char × List Char) := do
  let cs ← ciLit "ctc" cs0
  let sep1 := cs.takeWhile (fun c => c == ':' || c.isWhitespace)
  let cs := cs.dropWhile (fun c => c == ':' || c.isWhitespace)
  if sep1.isEmpty then none
  else do
    let (n1, cs) ← parseDecNum cs
    let cs := ws cs
    let cs ← reqSep cs
    let cs := ws cs
    let (n2, _) ← parseDecNum cs
    some (n1.raw, n2.raw)

/-- The pattern cascade of `extract_indian_salary` on `str(description)`
(first matching rule wins). -/
def extractFromText (t : String) : Option String :=
  match scanFor payMatchAt t.data with
  | some (g1, g2, period) =>
    let periodStr := if period = "year" ∨ period = "annum" then "per year" else "per month"
    some
      (match g2 with
       | some g2v => "₹" ++ String.mk g1 ++ " - ₹" ++ String.mk g2v ++ " " ++ periodStr
       | none => "₹" ++ String.mk g1 ++ " " ++ periodStr)
  | none =>
    match scanFor lpaMatchAt t.data with
    | some (g1, g2) => some ("₹" ++ String.mk g1 ++ " - " ++ String.mk g2 ++ " LPA")
    | none =>
      match scanFor singleLpaMatchAt t.data with
      | some g1 => some ("₹" ++ String.mk g1 ++ " LPA")
      | none =>
        match scanFor ctcMatchAt t.data with
        | some (g1, g2) => some ("₹" ++ String.mk g1 ++ " - " ++ String.mk g2 ++ " LPA")
        | none => none

/-- `extract_indian_salary`. -/
def extract_indian_salary (description : JVal) : Option String :=
  if !(jTruthy description) then none
  else extractFromText (jRender description)

/-- Python `str.capitalize()`: first character uppercased, the rest lowercased. -/
def pyCapitalize (s : String) : String :=
  match s.data with
  | [] => ""
  | c :: rest => String.mk (c.toUpper :: rest.map Char.toLower)

/-- The output dict of `transform_jobspy_to_schema` (the constant
`eligibility_criteria` sub-dict is elided; `posted_at` is a `JVal` because an
unparsed string `date_posted` is stored as-is). -/
structure SchemaJob where
  title : JVal
  company_name : JVal
  location : String
  description : String
  short_description : String
  employment_type : String
  salary_range : Option String
  apply_url : JVal
  source : String
  posted_at : JVal
  is_verified : Bool
  is_active : Bool
  expires_at : JVal
deriving Repr, DecidableEq

/-- `transform_jobspy_to_schema`.  `now` stands for `datetime.now()`, `fromMs`
for `fun v => datetime.fromtimestamp(v / 1000)` (day numbers). -/
def transform_jobspy_to_schema (now : Int) (fromMs : Int → Int) (doc0 : Doc) : SchemaJob :=
  let doc := cleanDoc doc0
  let postedRaw := dGet doc.date_posted
  let postedDate : JVal :=
    match postedRaw with
    | .pydate d => .pydatetime d
    | .num v => if v ≠ 0 then .pydatetime (fromMs v) else .num v
    | v => v
  let minAmt := dGet doc.min_amount
  let maxAmt := dGet doc.max_amount
  let salaryRange : Option String :=
    if jTruthy minAmt && jTruthy maxAmt then
      some (jRender (dGetD doc.currency (.s "INR")) ++ " " ++ jRender minAmt ++ " - "
            ++ jRender maxAmt ++ " (" ++ jRender (dGetD doc.interval (.s "yearly")) ++ ")")
    else if jTruthy minAmt then
      some (jRender (dGetD doc.currency (.s "INR")) ++ " " ++ jRender minAmt)
    else extract_indian_salary (dGet doc.description)
  let descriptionVal := dGet doc.description
  let description := if jTruthy descriptionVal then jRender descriptionVal else ""
  let shortDescription :=
    if description.data.length > 200 then String.mk (description.data.take 200) ++ "..."
    else description
  { title := dGetD doc.title (.s "Unknown Title")
  , company_name :=
      (let cn := dGet doc.company_name
       if jTruthy cn then cn else dGetD doc.company (.s "Unknown Company"))
  , location := jRender (dGetD doc.location (.s "Unknown Location"))
  , description := description
  , short_description := shortDescription
  , employment_type := map_job_type (dGet doc.job_type)
  , salary_range := salaryRange
  , apply_url := dGet doc.job_url
  , source := pyCapitalize (jRender (dGetD doc.site (.s "Unknown")))
  , posted_at := if jTruthy postedDate then postedDate else .pydatetime now
  , is_verified := false
  , is_active := true
  , expires_at := .null }

/-- The transform's output dict, re-read through the `Doc` lookups of a second
transform application: `title`, `company_name`, `location`, `description` are
present in the output; `company`, `job_type`, `job_url`, `site`, `date_posted`,
`min_amount`, `max_amount`, `currency`, `interval` are absent (the output dict
uses the keys `employment_type`, `apply_url`, `salary_range` instead). -/
def SchemaJob.asDoc (sj : SchemaJob) : Doc :=
  { title := some sj.title
  , company_name := some sj.company_name
  , company := none
  , location := some (.s sj.location)
  , description := some (.s sj.description)
  , job_type := none
  , job_url := none
  , site := none
  , date_posted := none
  , min_amount := none
  , max_amount := none
  , currency := none
  , interval := none }

/-- Follows the spec's words: the numeric value denoted by a captured amount
string — commas are digit-grouping separators, digits after the decimal point
are a fraction of one unit (truncated toward zero, as `int()` would). -/
def specAmountValue (s : String) : Nat :=
  let intPart := s.data.takeWhile (fun c => c ≠ '.')
  let fracPart := (s.data.dropWhile (fun c => c ≠ '.')).drop 1
  digitsToNat ((intPart ++ fracPart).filter Char.isDigit) / 10 ^ (fracPart.filter Char.isDigit).length

/-! ## Generic dedup-invariant machinery -/

theorem strAppend_left_cancel {p a b : String} (h : p ++ a = p ++ b) : a = b := by
  have h2 := congrArg String.data h
  rw [strData_append, strData_append] at h2
  exact strEqOfData (List.append_cancel_left h2)

/-- Invariant of one connector's accumulator: ids are pairwise distinct and
every accumulated post's id is the connector tag followed by a key whose
seen-set image (`kf k`: the key itself, or its job URL) is in `seen`. -/
def ConnInv (tag : String) (kf : String → String)
    (jl : List JobPost) (seen : List String) : Prop :=
  (jl.map JobPost.id).Nodup ∧ ∀ j ∈ jl, ∃ k, kf k ∈ seen ∧ j.id = tag ++ k

/-- What survives to the connector's output: distinct, tag-prefixed ids. -/
def ConnOut (tag : String) (jl : List JobPost) : Prop :=
  (jl.map JobPost.id).Nodup ∧ ∀ j ∈ jl, ∃ k, j.id = tag ++ k

theorem ConnInv.out {tag kf jl seen} (h : ConnInv tag kf jl seen) : ConnOut tag jl :=
  ⟨h.1, fun j hj => (h.2 j hj).imp fun _ hk => hk.2⟩

theorem ConnOut.take {tag jl} (h : ConnOut tag jl) (n : Nat) : ConnOut tag (jl.take n) :=
  ⟨h.1.sublist ((List.take_sublist n jl).map JobPost.id),
   fun j hj => h.2 j (List.take_subset n jl hj)⟩

theorem ConnOut.drop {tag jl} (h : ConnOut tag jl) (n : Nat) : ConnOut tag (jl.drop n) :=
  ⟨h.1.sublist ((List.drop_sublist n jl).map JobPost.id),
   fun j hj => h.2 j (List.drop_subset n jl hj)⟩

/-- Appending a post whose key was not yet seen preserves the invariant, for
any new seen-set that contains the old one and the new key's image. -/
theorem ConnInv.append {tag kf jl seen} (h : ConnInv tag kf jl seen) {k0 : String}
    (hnot : kf k0 ∉ seen) {post : JobPost} (hid : post.id = tag ++ k0)
    {seen2 : List String} (hsub : ∀ x ∈ seen, x ∈ seen2) (hk0 : kf k0 ∈ seen2) :
    ConnInv tag kf (jl ++ [post]) seen2 := by
  obtain ⟨hnd, hmem⟩ := h
  constructor
  · rw [List.map_append, List.nodup_append]
    refine ⟨hnd, List.nodup_singleton _, ?_⟩
    intro x hx
    simp only [List.map_cons, List.map_nil, List.mem_singleton]
    intro hxeq
    obtain ⟨j, hj, hje⟩ := List.mem_map.1 hx
    obtain ⟨k, hkseen, hkid⟩ := hmem j hj
    have hjp : j.id = post.id := hje.trans hxeq
    rw [hjp, hid] at hkid
    have : k0 = k := strAppend_left_cancel hkid
    exact hnot (this ▸ hkseen)
  · intro j hj
    rcases List.mem_append.1 hj with hj | hj
    · obtain ⟨k, hkseen, hkid⟩ := hmem j hj
      exact ⟨k, hsub _ hkseen, hkid⟩
    · rw [List.mem_singleton.1 hj]
      exact ⟨k0, hk0, hid⟩

theorem connInv_nil (tag : String) (kf : String → String) (seen : List String) :
    ConnInv tag kf [] seen := ⟨List.nodup_nil, by intro j hj; cases hj⟩

/-- Two differently tagged ids are never equal (the tags differ in their first
character). -/
theorem tagged_id_ne {t1 t2 : String} {c1 c2 : Char} {d1 d2 : List Char}
    (h1 : t1.data = c1 :: d1) (h2 : t2.data = c2 :: d2) (hne : c1 ≠ c2)
    (a b : String) : t1 ++ a ≠ t2 ++ b := by
  intro h
  have hd := congrArg String.data h
  rw [strData_append, strData_append, h1, h2] at hd
  exact hne (List.cons.injEq _ _ _ _ ▸ hd).1

/-- Lists of differently tagged ids are disjoint. -/
theorem connOut_disjoint {t1 t2 : String} {c1 c2 : Char} {d1 d2 : List Char}
    (h1 : t1.data = c1 :: d1) (h2 : t2.data = c2 :: d2) (hne : c1 ≠ c2)
    {l1 l2 : List JobPost} (ho1 : ConnOut t1 l1) (ho2 : ConnOut t2 l2) :
    (l1.map JobPost.id).Disjoint (l2.map JobPost.id) := by
  intro x hx1 hx2
  obtain ⟨j1, hj1, hje1⟩ := List.mem_map.1 hx1
  obtain ⟨j2, hj2, hje2⟩ := List.mem_map.1 hx2
  obtain ⟨k1, hk1⟩ := ho1.2 j1 hj1
  obtain ⟨k2, hk2⟩ := ho2.2 j2 hj2
  exact tagged_id_ne h1 h2 hne k1 k2 (by rw [← hk1, hje1, ← hje2, hk2])

/-! ## Naukri invariants -/

theorem naukriProcessPage_inv (today : Int) (fromMs : Int → Int) (wanted page : Nat) :
    ∀ (raws : List NaukriRawJob) (jl : List JobPost) (seen : List String),
      ConnInv "nk-" (fun k => k) jl seen →
      ConnInv "nk-" (fun k => k)
        (naukriProcessPage today fromMs wanted page raws jl seen).1
        (naukriProcessPage today fromMs wanted page raws jl seen).2 := by
  intro raws
  induction raws with
  | nil => intro jl seen h; simpa [naukriProcessPage] using h
  | cons job rest ih =>
    intro jl seen h
    cases hjid : job.jobId with
    | none =>
      simp only [naukriProcessPage, hjid]
      exact ih jl seen h
    | some jid =>
      simp only [naukriProcessPage, hjid]
      by_cases hskip : jid = "" ∨ seen.contains jid = true
      · simp only [if_pos hskip]
        exact ih jl seen h
      · simp only [if_neg hskip]
        have hnotmem : jid ∉ seen := by
          intro hmem
          exact hskip (Or.inr (by simpa [List.contains] using hmem))
        have h' : ConnInv "nk-" (fun k => k)
            (jl ++ [naukriProcessJob today fromMs job jid]) (jid :: seen) :=
          h.append hnotmem rfl (fun x hx => List.mem_cons_of_mem _ hx) (List.mem_cons_self _ _)
        by_cases hcont :
            (jl ++ [naukriProcessJob today fromMs job jid]).length < wanted ∧ page ≤ 50
        · simp only [if_pos hcont]; exact ih _ _ h'
        · simp only [if_neg hcont]; exact h'

theorem naukriGo_out (fetch : Nat → NaukriFetch) (today : Int) (fromMs : Int → Int)
    (wanted : Nat) :
    ∀ (fuel : Nat) (jl : List JobPost) (seen : List String) (page : Nat),
      ConnInv "nk-" (fun k => k) jl seen →
      ConnOut "nk-" (naukriGo fetch today fromMs wanted fuel jl seen page).1 := by
  intro fuel
  induction fuel with
  | zero => intro jl seen page h; exact h.out.take wanted
  | succ fuel ih =>
    intro jl seen page h
    rw [naukriGo]
    by_cases hguard : jl.length < wanted ∧ page ≤ 50
    · rw [if_pos hguard]
      cases hf : fetch page with
      | exn => exact h.out
      | resp status details =>
        by_cases hst : 200 ≤ status ∧ status < 400
        · by_cases hdet : details.isEmpty
          · simp only [if_pos hst, if_pos hdet]; exact h.out.take wanted
          · have hr := naukriProcessPage_inv today fromMs wanted page details jl seen h
            by_cases hcont :
                (naukriProcessPage today fromMs wanted page details jl seen).1.length < wanted
                  ∧ page ≤ 50
            · simp only [if_pos hst, if_neg hdet, if_pos hcont]
              exact ih _ _ _ hr
            · simp only [if_pos hst, if_neg hdet, if_neg hcont]
              exact hr.out.take wanted
        · simp only [if_neg hst]; exact h.out
    · rw [if_neg hguard]; exact h.out.take wanted

theorem naukriScrape_out (fetch : Nat → NaukriFetch) (today : Int) (fromMs : Int → Int)
    (wanted : Nat) : ConnOut "nk-" (naukriScrape fetch today fromMs wanted) :=
  naukriGo_out fetch today fromMs wanted 51 [] [] 1 (connInv_nil _ _ _)

theorem naukriGo_len (fetch : Nat → NaukriFetch) (today : Int) (fromMs : Int → Int)
    (wanted : Nat) :
    ∀ (fuel : Nat) (jl : List JobPost) (seen : List String) (page : Nat),
      (naukriGo fetch today fromMs wanted fuel jl seen page).1.length ≤ wanted := by
  intro fuel
  induction fuel with
  | zero =>
    intro jl seen page
    simp [naukriGo]
  | succ fuel ih =>
    intro jl seen page
    rw [naukriGo]
    by_cases hguard : jl.length < wanted ∧ page ≤ 50
    · rw [if_pos hguard]
      cases hf : fetch page with
      | exn => exact Nat.le_of_lt hguard.1
      | resp status details =>
        by_cases hst : 200 ≤ status ∧ status < 400
        · by_cases hdet : details.isEmpty
          · simp only [if_pos hst, if_pos hdet]; exact List.length_take_le wanted jl
          · by_cases hcont :
                (naukriProcessPage today fromMs wanted page details jl seen).1.length < wanted
                  ∧ page ≤ 50
            · simp only [if_pos hst, if_neg hdet, if_pos hcont]; exact ih _ _ _
            · simp only [if_pos hst, if_neg hdet, if_neg hcont]
              exact List.length_take_le wanted _
        · simp only [if_neg hst]; exact Nat.le_of_lt hguard.1
    · rw [if_neg hguard]; exact List.length_take_le wanted jl

theorem naukriGo_trace_le (fetch : Nat → NaukriFetch) (today : Int) (fromMs : Int → Int)
    (wanted : Nat) :
    ∀ (fuel : Nat) (jl : List JobPost) (seen : List String) (page : Nat),
      (naukriGo fetch today fromMs wanted fuel jl seen page).2.length ≤ 51 - page := by
  intro fuel
  induction fuel with
  | zero => intro jl seen page; simp [naukriGo]
  | succ fuel ih =>
    intro jl seen page
    rw [naukriGo]
    by_cases hguard : jl.length < wanted ∧ page ≤ 50
    · rw [if_pos hguard]
      cases hf : fetch page with
      | exn =>
        show ([page] : List Nat).length ≤ 51 - page
        simp only [List.length_cons, List.length_nil]
        omega
      | resp status details =>
        by_cases hst : 200 ≤ status ∧ status < 400
        · by_cases hdet : details.isEmpty
          · simp only [if_pos hst, if_pos hdet, List.length_cons, List.length_nil]
            omega
          · by_cases hcont :
                (naukriProcessPage today fromMs wanted page details jl seen).1.length < wanted
                  ∧ page ≤ 50
            · simp only [if_pos hst, if_neg hdet, if_pos hcont, List.length_cons]
              have := ih (naukriProcessPage today fromMs wanted page details jl seen).1
                (naukriProcessPage today fromMs wanted page details jl seen).2 (page + 1)
              omega
            · simp only [if_pos hst, if_neg hdet, if_neg hcont, List.length_cons,
                List.length_nil]
              omega
        · simp only [if_neg hst, List.length_cons, List.length_nil]
          omega
    · rw [if_neg hguard]; simp

/-! ## LinkedIn invariants -/

theorem liProcessCards_inv (wanted start : Nat) :
    ∀ (cards : List LICard) (jl : List JobPost) (seen : List String),
      ConnInv "li-" (fun k => k) jl seen →
      ConnInv "li-" (fun k => k)
        (liProcessCards wanted start cards jl seen).1
        (liProcessCards wanted start cards jl seen).2 := by
  intro cards
  induction cards with
  | nil => intro jl seen h; simpa [liProcessCards] using h
  | cons card rest ih =>
    intro jl seen h
    cases hhref : card.href with
    | none =>
      simp only [liProcessCards, hhref]
      exact ih jl seen h
    | some href =>
      simp only [liProcessCards, hhref]
      by_cases hskip : seen.contains (liJobId href) = true
      · simp only [if_pos hskip]
        exact ih jl seen h
      · simp only [if_neg hskip]
        have hnotmem : liJobId href ∉ seen := by
          intro hmem
          exact hskip (by simpa [List.contains] using hmem)
        have h' : ConnInv "li-" (fun k => k)
            (jl ++ [liProcessJob card (liJobId href)]) (liJobId href :: seen) :=
          h.append hnotmem rfl (fun x hx => List.mem_cons_of_mem _ hx) (List.mem_cons_self _ _)
        by_cases hcont :
            (jl ++ [liProcessJob card (liJobId href)]).length < wanted ∧ start < 1000
        · simp only [if_pos hcont]; exact ih _ _ h'
        · simp only [if_neg hcont]; exact h'

theorem linkedinGo_out (fetch : Nat → LIFetch) (wanted : Nat) :
    ∀ (fuel : Nat) (jl : List JobPost) (seen : List String) (start : Nat),
      ConnInv "li-" (fun k => k) jl seen →
      ConnOut "li-" (linkedinGo fetch wanted fuel jl seen start).1 := by
  intro fuel
  induction fuel with
  | zero => intro jl seen start h; exact h.out.take wanted
  | succ fuel ih =>
    intro jl seen start h
    rw [linkedinGo]
    by_cases hguard : jl.length < wanted ∧ start < 1000
    · rw [if_pos hguard]
      cases hf : fetch start with
      | exn => exact h.out
      | resp status cards =>
        by_cases hst : 200 ≤ status ∧ status < 400
        · by_cases hc : cards.length = 0
          · simp only [if_pos hst, if_pos hc]; exact h.out
          · have hr := liProcessCards_inv wanted start cards jl seen h
            by_cases hcont :
                (liProcessCards wanted start cards jl seen).1.length < wanted ∧ start < 1000
            · simp only [if_pos hst, if_neg hc, if_pos hcont]
              exact ih _ _ _ hr
            · simp only [if_pos hst, if_neg hc, if_neg hcont]
              exact hr.out.take wanted
        · simp only [if_neg hst]; exact h.out
    · rw [if_neg hguard]; exact h.out.take wanted

theorem linkedinScrape_out (fetch : Nat → LIFetch) (inp : ScraperInput) :
    ConnOut "li-" (linkedinScrape fetch inp) :=
  linkedinGo_out fetch inp.results_wanted 1001 [] []
    (if inp.offset ≠ 0 then inp.offset / 10 * 10 else 0) (connInv_nil _ _ _)

theorem linkedinGo_len (fetch : Nat → LIFetch) (wanted : Nat) :
    ∀ (fuel : Nat) (jl : List JobPost) (seen : List String) (start : Nat),
      (linkedinGo fetch wanted fuel jl seen start).1.length ≤ wanted := by
  intro fuel
  induction fuel with
  | zero => intro jl seen start; simp [linkedinGo]
  | succ fuel ih =>
    intro jl seen start
    rw [linkedinGo]
    by_cases hguard : jl.length < wanted ∧ start < 1000
    · rw [if_pos hguard]
      cases hf : fetch start with
      | exn => exact Nat.le_of_lt hguard.1
      | resp status cards =>
        by_cases hst : 200 ≤ status ∧ status < 400
        · by_cases hc : cards.length = 0
          · simp only [if_pos hst, if_pos hc]; exact Nat.le_of_lt hguard.1
          · by_cases hcont :
                (liProcessCards wanted start cards jl seen).1.length < wanted ∧ start < 1000
            · simp only [if_pos hst, if_neg hc, if_pos hcont]; exact ih _ _ _
            · simp only [if_pos hst, if_neg hc, if_neg hcont]
              exact List.length_take_le wanted _
        · simp only [if_neg hst]; exact Nat.le_of_lt hguard.1
    · rw [if_neg hguard]; exact List.length_take_le wanted jl

theorem linkedinGo_trace_lt (fetch : Nat → LIFetch) (wanted : Nat) :
    ∀ (fuel : Nat) (jl : List JobPost) (seen : List String) (start : Nat),
      ∀ x ∈ (linkedinGo fetch wanted fuel jl seen start).2, x < 1000 := by
  intro fuel
  induction fuel with
  | zero => intro jl seen start x hx; simp [linkedinGo] at hx
  | succ fuel ih =>
    intro jl seen start
    rw [linkedinGo]
    by_cases hguard : jl.length < wanted ∧ start < 1000
    · rw [if_pos hguard]
      cases hf : fetch start with
      | exn =>
        intro x hx
        have : x = start := List.mem_singleton.1 hx
        omega
      | resp status cards =>
        by_cases hst : 200 ≤ status ∧ status < 400
        · by_cases hc : cards.length = 0
          · simp only [if_pos hst, if_pos hc]
            intro x hx
            have : x = start := List.mem_singleton.1 hx
            omega
          · by_cases hcont :
                (liProcessCards wanted start cards jl seen).1.length < wanted ∧ start < 1000
            · simp only [if_pos hst, if_neg hc, if_pos hcont]
              intro x hx
              rcases List.mem_cons.1 hx with hx | hx
              · omega
              · exact ih _ _ _ x hx
            · simp only [if_pos hst, if_neg hc, if_neg hcont]
              intro x hx
              have : x = start := List.mem_singleton.1 hx
              omega
        · simp only [if_neg hst]
          intro x hx
          have : x = start := List.mem_singleton.1 hx
          omega
    · rw [if_neg hguard]
      intro x hx
      simp at hx

/-! ## Indeed invariants -/

/-- Invariant of the Indeed accumulator against the instance state `s0` the
run started from: distinct tagged ids keyed by URLs in `seen`, `seen` contains
everything of `s0`, and no accumulated post has a URL from `s0`. -/
def IndeedInv (base : String) (s0 : List String) (jl : List JobPost)
    (seen : List String) : Prop :=
  ConnInv "in-" (indeedUrlOf base) jl seen
  ∧ (∀ x ∈ s0, x ∈ seen)
  ∧ ∀ j ∈ jl, j.job_url ∉ s0

theorem indeedProcessRaws_inv (base : String) (s0 : List String) :
    ∀ (raws : List IndeedRawJob) (jl : List JobPost) (seen : List String),
      IndeedInv base s0 jl seen →
      IndeedInv base s0 (jl ++ (indeedProcessRaws base raws seen).1)
        (indeedProcessRaws base raws seen).2 := by
  intro raws
  induction raws with
  | nil => intro jl seen h; simpa [indeedProcessRaws] using h
  | cons j rest ih =>
    intro jl seen h
    by_cases hdup : seen.contains (indeedUrlOf base j.key) = true
    · simp only [indeedProcessRaws, indeedProcessJob, if_pos hdup]
      exact ih jl seen h
    · have hnotmem : indeedUrlOf base j.key ∉ seen := by
        intro hmem
        exact hdup (by simpa [List.contains] using hmem)
      simp only [indeedProcessRaws, indeedProcessJob, if_neg hdup]
      have h' : IndeedInv base s0 (jl ++ [indeedPost base j])
          (indeedUrlOf base j.key :: seen) := by
        refine ⟨h.1.append hnotmem rfl
            (fun x hx => List.mem_cons_of_mem _ hx) (List.mem_cons_self _ _),
          fun x hx => List.mem_cons_of_mem _ (h.2.1 x hx), ?_⟩
        intro p hp
        rcases List.mem_append.1 hp with hp | hp
        · exact h.2.2 p hp
        · rw [List.mem_singleton.1 hp]
          intro hcon
          exact hnotmem (h.2.1 _ hcon)
      have hr := ih (jl ++ [indeedPost base j]) (indeedUrlOf base j.key :: seen) h'
      simpa only [List.append_assoc, List.singleton_append] using hr

theorem indeedGo_inv (fetch : Nat → IndeedFetch) (base : String) (wanted offset : Nat)
    (s0 : List String) :
    ∀ (fuel : Nat) (jl : List JobPost) (seen : List String) (cursor : Option String)
      (page : Nat), IndeedInv base s0 jl seen →
      ∀ jl' seen',
        indeedGo fetch base wanted offset fuel jl seen cursor page = .ok (jl', seen') →
        IndeedInv base s0 jl' seen' := by
  intro fuel
  induction fuel with
  | zero =>
    intro jl seen cursor page h jl' seen' heq
    simp only [indeedGo, Except.ok.injEq, Prod.mk.injEq] at heq
    rw [← heq.1, ← heq.2]
    exact h
  | succ fuel ih =>
    intro jl seen cursor page h jl' seen' heq
    rw [indeedGo] at heq
    by_cases hguard : seen.length < wanted + offset
    · rw [if_pos hguard] at heq
      cases hf : fetch page with
      | exn => rw [hf] at heq; simp at heq
      | resp ok results next =>
        rw [hf] at heq
        cases ok with
        | true =>
          by_cases hemp : (indeedProcessRaws base results seen).1.isEmpty
          · simp only [if_pos hemp, if_true, Except.ok.injEq, Prod.mk.injEq] at heq
            have hinv := indeedProcessRaws_inv base s0 results jl seen h
            rw [List.isEmpty_iff.1 hemp, List.append_nil] at hinv
            rw [← heq.1, ← heq.2]
            exact hinv
          · simp only [if_neg hemp, if_true] at heq
            exact ih _ _ _ _ (indeedProcessRaws_inv base s0 results jl seen h) jl' seen' heq
        | false =>
          simp only [Bool.false_eq_true, if_false, Except.ok.injEq, Prod.mk.injEq] at heq
          rw [← heq.1, ← heq.2]
          exact h
    · rw [if_neg hguard] at heq
      simp only [Except.ok.injEq, Prod.mk.injEq] at heq
      rw [← heq.1, ← heq.2]
      exact h

theorem indeedJobs_inv (fetch : Nat → IndeedFetch) (inp : ScraperInput)
    (s0 : List String) :
    ConnOut "in-" (indeedJobs fetch inp s0)
      ∧ ∀ j ∈ indeedJobs fetch inp s0, j.job_url ∉ s0 := by
  unfold indeedJobs indeedScrape
  cases hgo : indeedGo fetch indeedBaseUrl inp.results_wanted inp.offset
      (inp.results_wanted + inp.offset + 1) [] s0 none 1 with
  | error e =>
    exact ⟨⟨List.nodup_nil, by intro j hj; cases hj⟩, by intro j hj; cases hj⟩
  | ok r =>
    have hinv : IndeedInv indeedBaseUrl s0 r.1 r.2 :=
      indeedGo_inv fetch indeedBaseUrl inp.results_wanted inp.offset s0 _ [] s0 none 1
        ⟨connInv_nil _ _ _, fun x hx => hx, by intro j hj; cases hj⟩ r.1 r.2 (by rw [hgo])
    refine ⟨(hinv.1.out.drop inp.offset).take inp.results_wanted, ?_⟩
    intro j hj
    exact hinv.2.2 j (List.drop_subset _ _ (List.take_subset _ _ hj))

theorem indeedJobs_len (fetch : Nat → IndeedFetch) (inp : ScraperInput)
    (s0 : List String) : (indeedJobs fetch inp s0).length ≤ inp.results_wanted := by
  unfold indeedJobs indeedScrape
  cases hgo : indeedGo fetch indeedBaseUrl inp.results_wanted inp.offset
      (inp.results_wanted + inp.offset + 1) [] s0 none 1 with
  | error e => simp
  | ok r => exact List.length_take_le inp.results_wanted (r.1.drop inp.offset)

/-! ## Per-branch behavior of a fetch failure -/

theorem naukriGo_exn {fetch : Nat → NaukriFetch} {today : Int} {fromMs : Int → Int}
    {wanted fuel : Nat} {jl : List JobPost} {seen : List String} {page : Nat}
    (hg : jl.length < wanted) (hp : page ≤ 50) (hf : fetch page = .exn) :
    naukriGo fetch today fromMs wanted (fuel + 1) jl seen page = (jl, [page]) := by
  rw [naukriGo, if_pos ⟨hg, hp⟩, hf]

theorem naukriGo_badStatus {fetch : Nat → NaukriFetch} {today : Int} {fromMs : Int → Int}
    {wanted fuel : Nat} {jl : List JobPost} {seen : List String} {page status : Nat}
    {details : List NaukriRawJob}
    (hg : jl.length < wanted) (hp : page ≤ 50) (hf : fetch page = .resp status details)
    (hs : ¬(200 ≤ status ∧ status < 400)) :
    naukriGo fetch today fromMs wanted (fuel + 1) jl seen page = (jl, [page]) := by
  rw [naukriGo, if_pos ⟨hg, hp⟩, hf]
  simp only [if_neg hs]

theorem linkedinGo_exn {fetch : Nat → LIFetch} {wanted fuel : Nat} {jl : List JobPost}
    {seen : List String} {start : Nat}
    (hg : jl.length < wanted) (hp : start < 1000) (hf : fetch start = .exn) :
    linkedinGo fetch wanted (fuel + 1) jl seen start = (jl, [start]) := by
  rw [linkedinGo, if_pos ⟨hg, hp⟩, hf]

theorem linkedinGo_badStatus {fetch : Nat → LIFetch} {wanted fuel : Nat}
    {jl : List JobPost} {seen : List String} {start status : Nat} {cards : List LICard}
    (hg : jl.length < wanted) (hp : start < 1000) (hf : fetch start = .resp status cards)
    (hs : ¬(200 ≤ status ∧ status < 400)) :
    linkedinGo fetch wanted (fuel + 1) jl seen start = (jl, [start]) := by
  rw [linkedinGo, if_pos ⟨hg, hp⟩, hf]
  simp only [if_neg hs]

theorem indeedGo_badStatus {fetch : Nat → IndeedFetch} {base : String}
    {wanted offset fuel : Nat} {jl : List JobPost} {seen : List String}
    {cursor : Option String} {page : Nat} {results : List IndeedRawJob}
    {next : Option String}
    (hg : seen.length < wanted + offset) (hf : fetch page = .resp false results next) :
    indeedGo fetch base wanted offset (fuel + 1) jl seen cursor page = .ok (jl, seen) := by
  rw [indeedGo, if_pos hg, hf]
  rfl

theorem indeedGo_exn {fetch : Nat → IndeedFetch} {base : String}
    {wanted offset fuel : Nat} {jl : List JobPost} {seen : List String}
    {cursor : Option String} {page : Nat}
    (hg : seen.length < wanted + offset) (hf : fetch page = .exn) :
    indeedGo fetch base wanted offset (fuel + 1) jl seen cursor page = .error () := by
  rw [indeedGo, if_pos hg, hf]

/-! ## Concrete fixtures for witnesses and counterexamples -/

/-- A trivial epoch-to-day conversion used where its value is irrelevant. -/
def czero : Int → Int := fun _ => 0

/-- `fun c => datetime.fromtimestamp(c / 1000).date()` as UTC epoch days. -/
def cFromMs : Int → Int := fun c => c / 86400000

def cNaukriRaw : NaukriRawJob :=
  ⟨some "n1", some "T", some "C", [], none, none, none, none⟩

/-- A Naukri source that always answers one well-formed job. -/
def cNOracle : Nat → NaukriFetch := fun _ => .resp 200 [cNaukriRaw]

def cLCard : LICard := ⟨some "a-1", some "T", none, none, none, none⟩

/-- A LinkedIn source that always answers one card. -/
def cLOracle : Nat → LIFetch := fun _ => .resp 200 [cLCard]

def cIRaw : IndeedRawJob := ⟨"k1", "T", "D", [], 0, none, none, none, none, none⟩

/-- An Indeed source that always answers one well-formed job. -/
def cIOracle : Nat → IndeedFetch := fun _ => .resp true [cIRaw] none

/-- An Indeed source whose every request raises a transport exception. -/
def exnIOracle : Nat → IndeedFetch := fun _ => .exn

def exnNOracle : Nat → NaukriFetch := fun _ => .exn

def badNOracle : Nat → NaukriFetch := fun _ => .resp 500 []

def exnLOracle : Nat → LIFetch := fun _ => .exn

def badLOracle : Nat → LIFetch := fun _ => .resp 500 []

def badIOracle : Nat → IndeedFetch := fun _ => .resp false [] none

/-- A query asking for one result. -/
def cInp1 : ScraperInput := ⟨"engineer", 1, 0⟩

/-- A record with structured compensation and a salary-bearing description. -/
def cDoc : Doc :=
  ⟨some (.s "T"), some (.s "C"), none, some (.s "L"), some (.s "10-15 LPA"),
   some (.s "fulltime"), some (.s "u"), some (.s "naukri"), none,
   some (.num 100000), some (.num 200000), some (.s "INR"), some (.s "yearly")⟩

/-! ## Claims -/

/-- C1 (amended): each connector's scrape returns at most
`results_wanted` records, and the merged aggregation — which concatenates the
three connectors' lists — returns at most `3 * results_wanted`; the merged
collection is not bounded by `results_wanted` itself. -/
theorem c1_amended (fetchI : Nat → IndeedFetch) (fetchL : Nat → LIFetch)
    (fetchN : Nat → NaukriFetch) (today : Int) (fromMs : Int → Int)
    (inp : ScraperInput) (seen0 : List String) :
    (aggregateJobs fetchI fetchL fetchN today fromMs inp seen0).length
        ≤ 3 * inp.results_wanted
    ∧ (indeedJobs fetchI inp seen0).length ≤ inp.results_wanted
    ∧ (linkedinScrape fetchL inp).length ≤ inp.results_wanted
    ∧ (naukriScrape fetchN today fromMs inp.results_wanted).length
        ≤ inp.results_wanted := by
  have hI := indeedJobs_len fetchI inp seen0
  have hL : (linkedinScrape fetchL inp).length ≤ inp.results_wanted :=
    linkedinGo_len fetchL inp.results_wanted 1001 [] []
      (if inp.offset ≠ 0 then inp.offset / 10 * 10 else 0)
  have hN : (naukriScrape fetchN today fromMs inp.results_wanted).length
      ≤ inp.results_wanted :=
    naukriGo_len fetchN today fromMs inp.results_wanted 51 [] [] 1
  refine ⟨?_, hI, hL, hN⟩
  unfold aggregateJobs
  rw [List.length_append, List.length_append]
  omega

/-- C1 (counterexample): with `results_wanted = 1` and each of the three
sources providing one job, the merged run holds 3 records, exceeding
`SearchQuery.resultCount = 1`. -/
theorem c1_counterexample :
    (aggregateJobs cIOracle cLOracle cNOracle 0 czero cInp1 []).length = 3
    ∧ cInp1.results_wanted = 1
    ∧ ¬((aggregateJobs cIOracle cLOracle cNOracle 0 czero cInp1 []).length
        ≤ cInp1.results_wanted) := by decide

/-- C2: within one aggregation run all `CanonicalJob.id` values are pairwise
distinct — each connector deduplicates on its source-native key before
emitting, and the `in-` / `li-` / `nk-` prefixes keep the three connectors'
ids disjoint in the merged output. -/
theorem c2_distinct_ids (fetchI : Nat → IndeedFetch) (fetchL : Nat → LIFetch)
    (fetchN : Nat → NaukriFetch) (today : Int) (fromMs : Int → Int)
    (inp : ScraperInput) (seen0 : List String) :
    ((aggregateJobs fetchI fetchL fetchN today fromMs inp seen0).map JobPost.id).Nodup := by
  obtain ⟨hIout, -⟩ := indeedJobs_inv fetchI inp seen0
  have hLout := linkedinScrape_out fetchL inp
  have hNout := naukriScrape_out fetchN today fromMs inp.results_wanted
  unfold aggregateJobs
  rw [List.map_append, List.map_append]
  have dIL := connOut_disjoint rfl rfl (by decide : ('i' : Char) ≠ 'l') hIout hLout
  have dIN := connOut_disjoint rfl rfl (by decide : ('i' : Char) ≠ 'n') hIout hNout
  have dLN := connOut_disjoint rfl rfl (by decide : ('l' : Char) ≠ 'n') hLout hNout
  refine List.Nodup.append (List.Nodup.append hIout.1 hLout.1 dIL) hNout.1 ?_
  intro x hx1 hx2
  rcases List.mem_append.1 hx1 with h1 | h1
  · exact dIN h1 hx2
  · exact dLN h1 hx2

/-- C3 (amended): Naukri and LinkedIn initialize their dedup set inside
`scrape`, so consecutive runs are independent by construction; Indeed's
`seen_urls` lives on the instance and survives across runs, so a record whose
URL is already in the instance state is never emitted again — a second run on
the same instance suppresses everything the first run emitted. -/
theorem c3_amended (fetchI : Nat → IndeedFetch) (inp : ScraperInput)
    (seen0 : List String) :
    (indeedJobs fetchI inp seen0).all (fun j => !(seen0.contains j.job_url)) = true := by
  rw [List.all_eq_true]
  intro j hj
  have hnot := (indeedJobs_inv fetchI inp seen0).2 j hj
  simpa [List.contains] using hnot

/-- C3 (counterexample): against a source that always answers the same job,
the first Indeed run returns it, and a second run on the same instance (whose
`seen_urls` kept the first run's URL) returns nothing. -/
theorem c3_counterexample :
    indeedJobs cIOracle cInp1 [] ≠ []
    ∧ indeedJobs cIOracle cInp1 (indeedSeenAfter cIOracle cInp1 []) = [] := by decide

/-- C4 (amended): on a transport exception or a non-success status, Naukri and
LinkedIn end the run and return the jobs accumulated so far; Indeed returns
the accumulated jobs on a non-success status, but a transport exception during
its page fetch propagates out of `Indeed.scrape` (no try/except). -/
theorem c4_amended :
    (∀ (fetch : Nat → NaukriFetch) (today : Int) (fromMs : Int → Int)
        (wanted fuel : Nat) (jl : List JobPost) (seen : List String) (page : Nat),
      jl.length < wanted → page ≤ 50 → fetch page = .exn →
        naukriGo fetch today fromMs wanted (fuel + 1) jl seen page = (jl, [page]))
    ∧ (∀ (fetch : Nat → NaukriFetch) (today : Int) (fromMs : Int → Int)
        (wanted fuel : Nat) (jl : List JobPost) (seen : List String)
        (page status : Nat) (details : List NaukriRawJob),
      jl.length < wanted → page ≤ 50 → fetch page = .resp status details →
      ¬(200 ≤ status ∧ status < 400) →
        naukriGo fetch today fromMs wanted (fuel + 1) jl seen page = (jl, [page]))
    ∧ (∀ (fetch : Nat → LIFetch) (wanted fuel : Nat) (jl : List JobPost)
        (seen : List String) (start : Nat),
      jl.length < wanted → start < 1000 → fetch start = .exn →
        linkedinGo fetch wanted (fuel + 1) jl seen start = (jl, [start]))
    ∧ (∀ (fetch : Nat → LIFetch) (wanted fuel : Nat) (jl : List JobPost)
        (seen : List String) (start status : Nat) (cards : List LICard),
      jl.length < wanted → start < 1000 → fetch start = .resp status cards →
      ¬(200 ≤ status ∧ status < 400) →
        linkedinGo fetch wanted (fuel + 1) jl seen start = (jl, [start]))
    ∧ (∀ (fetch : Nat → IndeedFetch) (base : String) (wanted offset fuel : Nat)
        (jl : List JobPost) (seen : List String) (cursor : Option String)
        (page : Nat) (results : List IndeedRawJob) (next : Option String),
      seen.length < wanted + offset → fetch page = .resp false results next →
        indeedGo fetch base wanted offset (fuel + 1) jl seen cursor page = .ok (jl, seen)) :=
  ⟨fun _ _ _ _ _ _ _ _ hg hp hf => naukriGo_exn hg hp hf,
   fun _ _ _ _ _ _ _ _ _ _ hg hp hf hs => naukriGo_badStatus hg hp hf hs,
   fun _ _ _ _ _ _ hg hp hf => linkedinGo_exn hg hp hf,
   fun _ _ _ _ _ _ _ _ hg hp hf hs => linkedinGo_badStatus hg hp hf hs,
   fun _ _ _ _ _ _ _ _ _ _ _ hg hf => indeedGo_badStatus hg hf⟩

/-- C4 (witness): the amended statement at concrete failing sources. -/
theorem c4_witness :
    naukriGo exnNOracle 0 czero 5 51 [] [] 1 = ([], [1])
    ∧ naukriGo badNOracle 0 czero 5 51 [] [] 1 = ([], [1])
    ∧ linkedinGo exnLOracle 5 1001 [] [] 0 = ([], [0])
    ∧ linkedinGo badLOracle 5 1001 [] [] 0 = ([], [0])
    ∧ indeedGo badIOracle indeedBaseUrl 5 0 6 [] [] none 1 = .ok ([], []) :=
  ⟨c4_amended.1 exnNOracle 0 czero 5 50 [] [] 1 (by decide) (by decide) rfl,
   c4_amended.2.1 badNOracle 0 czero 5 50 [] [] 1 500 [] (by decide) (by decide) rfl
     (by decide),
   c4_amended.2.2.1 exnLOracle 5 1000 [] [] 0 (by decide) (by decide) rfl,
   c4_amended.2.2.2.1 badLOracle 5 1000 [] [] 0 500 [] (by decide) (by decide) rfl
     (by decide),
   c4_amended.2.2.2.2 badIOracle indeedBaseUrl 5 0 5 [] [] none 1 [] none (by decide) rfl⟩

/-- C4 (counterexample): a transport exception on Indeed's first page fetch
propagates out of `Indeed.scrape` instead of yielding the accumulated (empty)
job list. -/
theorem c4_counterexample :
    indeedScrape exnIOracle cInp1 [] = .error ()
    ∧ indeedScrape exnIOracle ⟨"engineer", 5, 0⟩ [] = .error () := ⟨rfl, rfl⟩

/-- C5: the Naukri placeholder text `"12-16 Lacs P.A."` parses to
`min = 1200000`, `max = 1600000`, `currency = "INR"` (lakhs scaled by
100000), and a crore-denominated text is scaled by 10000000. -/
theorem c5_lakh_compensation :
    naukriGetCompensation [⟨"salary", "12-16 Lacs P.A."⟩]
      = some ⟨some 1200000, some 1600000, "INR", none⟩
    ∧ naukriGetCompensation [⟨"salary", "1.5-2 Cr"⟩]
      = some ⟨some 15000000, some 20000000, "INR", none⟩ := by decide

/-- C6: on `"Pay: ₹200,000.00 - ₹300,000.00 per year"` the free-text fallback
matches its pay rule with min group `200,000.00` (value 200000), max group
`300,000.00` (value 300000) and a yearly period, and returns the salary string
built from those captures. -/
theorem c6_pay_extraction :
    extract_indian_salary (.s "Pay: ₹200,000.00 - ₹300,000.00 per year")
      = some "₹200,000.00 - ₹300,000.00 per year"
    ∧ scanFor payMatchAt "Pay: ₹200,000.00 - ₹300,000.00 per year".data
      = some ("200,000.00".data, some "300,000.00".data, "year")
    ∧ specAmountValue "200,000.00" = 200000
    ∧ specAmountValue "300,000.00" = 300000 := by decide

/-- C7 (amended): when `min_amount` and `max_amount` are present and truthy the
salary range is built solely from the structured fields — the free-text
extractor is never consulted and the description is irrelevant.  (The literal
"applying the transform twice equals applying it once" fails because the
output schema drops `min_amount`/`max_amount`; see the counterexample.) -/
theorem c7_amended (now : Int) (fromMs : Int → Int) (doc : Doc) (d' : Option JVal)
    (hmin : jTruthy (dGet (cleanDoc doc).min_amount) = true)
    (hmax : jTruthy (dGet (cleanDoc doc).max_amount) = true) :
    (transform_jobspy_to_schema now fromMs doc).salary_range
      = some (jRender (dGetD (cleanDoc doc).currency (.s "INR")) ++ " "
          ++ jRender (dGet (cleanDoc doc).min_amount) ++ " - "
          ++ jRender (dGet (cleanDoc doc).max_amount) ++ " ("
          ++ jRender (dGetD (cleanDoc doc).interval (.s "yearly")) ++ ")")
    ∧ (transform_jobspy_to_schema now fromMs { doc with description := d' }).salary_range
      = (transform_jobspy_to_schema now fromMs doc).salary_range := by
  have hmin' : jTruthy (dGet (cleanDoc { doc with description := d' }).min_amount) = true :=
    hmin
  have hmax' : jTruthy (dGet (cleanDoc { doc with description := d' }).max_amount) = true :=
    hmax
  constructor
  · simp only [transform_jobspy_to_schema, hmin, hmax, Bool.and_self, if_true]
  · simp only [transform_jobspy_to_schema, hmin, hmax, hmin', hmax', Bool.and_self, if_true]
    rfl

/-- C7 (witness): the amended statement at a concrete structured record. -/
theorem c7_witness :
    (transform_jobspy_to_schema 0 czero cDoc).salary_range
      = some "INR 100000 - 200000 (yearly)"
    ∧ (transform_jobspy_to_schema 0 czero
          { cDoc with description := some (.s "55-60 LPA") }).salary_range
      = (transform_jobspy_to_schema 0 czero cDoc).salary_range := by
  have h := c7_amended 0 czero cDoc (some (.s "55-60 LPA")) (by decide) (by decide)
  exact ⟨by rw [h.1]; decide, h.2⟩

/-- C7 (counterexample): feeding the transform's output dict back into the
transform changes the salary: the structured fields are gone from the output,
so the second application falls back to the free-text extractor on the
description, which here yields a different salary string. -/
theorem c7_counterexample :
    jTruthy (dGet cDoc.min_amount) = true
    ∧ jTruthy (dGet cDoc.max_amount) = true
    ∧ (transform_jobspy_to_schema 0 czero cDoc).salary_range
        = some "INR 100000 - 200000 (yearly)"
    ∧ (transform_jobspy_to_schema 0 czero
          ((transform_jobspy_to_schema 0 czero cDoc).asDoc)).salary_range
        = some "₹10 - 15 LPA"
    ∧ (transform_jobspy_to_schema 0 czero
          ((transform_jobspy_to_schema 0 czero cDoc).asDoc)).salary_range
        ≠ (transform_jobspy_to_schema 0 czero cDoc).salary_range := by decide

/-- C8 (amended): with label and creation timestamp both absent (or the label
empty and the timestamp absent/zero) the parsed date is `none` — never a
fabricated now; a non-empty label matching no today-phrase and not containing
`"ago"` falls back to the creation-timestamp date; but a label containing
`"ago"` whose day count is unparseable yields `none` even when a creation
timestamp is present (no fallback on that path). -/
theorem c8_amended (today : Int) (fromMs : Int → Int) :
    naukriParseDate today fromMs none none = none
    ∧ naukriParseDate today fromMs (some "") none = none
    ∧ (∀ (lbl : String) (c : Int), lbl ≠ "" →
        listHasInfix "today".data (lowerChars lbl.data) = false →
        listHasInfix "just now".data (lowerChars lbl.data) = false →
        listHasInfix "few hours".data (lowerChars lbl.data) = false →
        listHasInfix "ago".data (lowerChars lbl.data) = false →
        c ≠ 0 →
        naukriParseDate today fromMs (some lbl) (some c) = some (fromMs c))
    ∧ (∀ (lbl : String) (c : Int), lbl ≠ "" →
        listHasInfix "today".data (lowerChars lbl.data) = false →
        listHasInfix "just now".data (lowerChars lbl.data) = false →
        listHasInfix "few hours".data (lowerChars lbl.data) = false →
        listHasInfix "ago".data (lowerChars lbl.data) = true →
        searchDayNum (lowerChars lbl.data) = none →
        naukriParseDate today fromMs (some lbl) (some c) = none) := by
  refine ⟨rfl, rfl, ?_, ?_⟩
  · intro lbl c hlbl h1 h2 h3 h4 hc
    simp [naukriParseDate, hlbl, h1, h2, h3, h4, naukriDateFromCreated, hc]
  · intro lbl c hlbl h1 h2 h3 h4 hs
    simp [naukriParseDate, hlbl, h1, h2, h3, h4, hs]

/-- C8 (witness): the amended statement at concrete labels — `"posted
recently"` falls back to the timestamp date, `"30+ days ago"` yields none. -/
theorem c8_witness :
    naukriParseDate 0 cFromMs (some "posted recently") (some 1700000000000)
      = some (cFromMs 1700000000000)
    ∧ naukriParseDate 0 cFromMs (some "30+ days ago") (some 1700000000000) = none := by
  have h := c8_amended 0 cFromMs
  exact ⟨h.2.2.1 "posted recently" 1700000000000 (by decide) (by decide) (by decide)
           (by decide) (by decide) (by decide),
         h.2.2.2 "30+ days ago" 1700000000000 (by decide) (by decide) (by decide)
           (by decide) (by decide) (by decide)⟩

/-- C8 (counterexample): the label `"30+ days ago"` is present but its day
count is unparseable, and a creation timestamp is present — the claim requires
the fallback date `some 19675`, but the code returns `none`. -/
theorem c8_counterexample :
    naukriParseDate 20000 cFromMs (some "30+ days ago") (some 1700000000000) = none
    ∧ (1700000000000 : Int) ≠ 0
    ∧ cFromMs 1700000000000 = 19675
    ∧ naukriParseDate 20000 cFromMs (some "30+ days ago") (some 1700000000000)
        ≠ some (cFromMs 1700000000000) := by decide

/-- C9: every pagination loop stops at its hard ceiling regardless of the
source: the LinkedIn loop never issues a fetch at an offset of 1000 or more,
and the Naukri loop never fetches more than 50 pages — for every source
oracle, including ones that answer non-empty pages forever. -/
theorem c9_hard_ceilings (fetchL : Nat → LIFetch) (inp : ScraperInput)
    (fetchN : Nat → NaukriFetch) (today : Int) (fromMs : Int → Int) (wanted : Nat) :
    (linkedinScrapeT fetchL inp).2.all (fun s => decide (s < 1000)) = true
    ∧ (naukriScrapeT fetchN today fromMs wanted).2.length ≤ 50 := by
  constructor
  · rw [List.all_eq_true]
    intro x hx
    simpa using linkedinGo_trace_lt fetchL inp.results_wanted 1001 [] []
      (if inp.offset ≠ 0 then inp.offset / 10 * 10 else 0) x hx
  · exact naukriGo_trace_le fetchN today fromMs wanted 51 [] [] 1

/-- C10: the employment-type mapping is total and three-valued — `"Internship"`
when the (lowercased) rendering contains `"intern"`, else `"Contract"` when it
contains `"contract"` or `"temporary"`, and `"Full-time"` in every other case,
including `None`, empty, and unrecognized labels. -/
theorem c10_job_type_total (v : JVal) :
    (map_job_type v = "Internship" ∨ map_job_type v = "Contract"
      ∨ map_job_type v = "Full-time")
    ∧ (jTruthy v = false → map_job_type v = "Full-time")
    ∧ (jTruthy v = true →
        listHasInfix "intern".data (lowerChars (jRender v).data) = true →
        map_job_type v = "Internship")
    ∧ (jTruthy v = true →
        listHasInfix "intern".data (lowerChars (jRender v).data) = false →
        (listHasInfix "contract".data (lowerChars (jRender v).data) = true
          ∨ listHasInfix "temporary".data (lowerChars (jRender v).data) = true) →
        map_job_type v = "Contract")
    ∧ (listHasInfix "intern".data (lowerChars (jRender v).data) = false →
        listHasInfix "contract".data (lowerChars (jRender v).data) = false →
        listHasInfix "temporary".data (lowerChars (jRender v).data) = false →
        map_job_type v = "Full-time") := by
  refine ⟨?_, ?_, ?_, ?_, ?_⟩
  · by_cases ht : jTruthy v = true
    · by_cases h1 : listHasInfix "intern".data (lowerChars (jRender v).data) = true
      · exact Or.inl (by simp [map_job_type, ht, h1])
      · by_cases h2 : listHasInfix "contract".data (lowerChars (jRender v).data) = true
        · exact Or.inr (Or.inl (by simp [map_job_type, ht, h1, h2]))
        · by_cases h3 : listHasInfix "temporary".data (lowerChars (jRender v).data) = true
          · exact Or.inr (Or.inl (by simp [map_job_type, ht, h1, h2, h3]))
          · exact Or.inr (Or.inr (by simp [map_job_type, ht, h1, h2, h3]))
    · simp only [Bool.not_eq_true] at ht
      exact Or.inr (Or.inr (by simp [map_job_type, ht]))
  · intro ht; simp [map_job_type, ht]
  · intro ht h1; simp [map_job_type, ht, h1]
  · intro ht h1 h2
    rcases h2 with h2 | h2 <;> simp [map_job_type, ht, h1, h2]
  · intro h1 h2 h3
    unfold map_job_type
    by_cases ht : jTruthy v
    · simp [ht, h1, h2, h3]
    · simp only [Bool.not_eq_true] at ht
      simp [ht]

/-- C10 (witness): the mapping at concrete inputs, through the theorem. -/
theorem c10_witness :
    map_job_type (.s "Internship, Part-time") = "Internship"
    ∧ map_job_type (.s "Temporary role") = "Contract"
    ∧ map_job_type .null = "Full-time"
    ∧ map_job_type (.s "Volunteer") = "Full-time" :=
  ⟨(c10_job_type_total (.s "Internship, Part-time")).2.2.1 (by decide) (by decide),
   (c10_job_type_total (.s "Temporary role")).2.2.2.1 (by decide) (by decide)
     (Or.inr (by decide)),
   (c10_job_type_total .null).2.1 (by decide),
   (c10_job_type_total (.s "Volunteer")).2.2.2.2 (by decide) (by decide) (by decide)⟩
